import Mathlib

/-!
Shallow embedding of the turn-execution loop and item dispatcher of the
computer-using-agent sample app (`agent/agent.py`), together with proofs of
the testable properties claimed about it.

Modelling conventions:
* Python dicts with string values (the `action` payload and page metadata)
  are association lists (`Dict`); `dget`/`dset`/`truthy` mirror `d.get(k)`,
  `d[k] = v` and Python truthiness of the looked-up value.
* Items are a flat record of optional fields, mirroring the heterogeneous
  dicts the service returns; absent keys are `none`, and subscripting an
  absent key raises `PyError.keyError` exactly where the source subscripts.
* Side effects (surface operations, screenshots, safety-gate invocations,
  service calls, log emissions) are recorded in an event trace returned
  alongside the `Except` result, so temporal claims are statements about
  trace order.
* Wall-clock timing (`duration`) and image rendering are not modelled; no
  claim mentions them.
* The response service and the URL blocklist live in `utils.py`, which is
  outside the sources; they are modelled from the spec as an oracle
  (`Service`) and a predicate (`Agent.blocklisted`).
-/

namespace CUA

/-- A Python dict with string keys and string values, as an association list.
Used for the `action` payload and for browser page metadata. -/
abbrev Dict := List (String × String)

/-- `d.get(k)`: the value at the first occurrence of key `k`, if any. -/
def dget (d : Dict) (k : String) : Option String :=
  (d.find? (fun p => p.1 == k)).map (fun p => p.2)

/-- `d[k] = v`: replace the value at key `k`, or append the binding if absent. -/
def dset (d : Dict) (k v : String) : Dict :=
  if (d.find? (fun p => p.1 == k)).isSome then
    d.map (fun p => if p.1 == k then (k, v) else p)
  else
    d ++ [(k, v)]

/-- Python truthiness of `d.get(k)`: a missing key or an empty string is falsy. -/
def truthy : Option String → Bool
  | none => false
  | some s => s != ""

/-- A pending safety check attached to a `computer_call` item. -/
structure SafetyCheck where
  message : String
deriving Repr, DecidableEq

/-- The structured payload of a `computer_call_output`'s `output` field. -/
structure ImagePayload where
  type : String
  image_url : String
  current_url : Option String := none
  page_metadata : Option Dict := none
deriving Repr, DecidableEq

/-- The `output` field of a tool-output item: a bare string for
`function_call_output`, an image payload for `computer_call_output`. -/
inductive OutputVal where
  | str (s : String)
  | image (p : ImagePayload)
deriving Repr, DecidableEq

/-- One conversation item: the flat union of the fields the dispatcher and the
turn loop read. Absent dict keys are `none`. -/
structure Item where
  type : String
  role : Option String := none
  content : Option (List String) := none
  name : Option String := none
  arguments : Option Dict := none
  call_id : Option String := none
  action : Option Dict := none
  pending_safety_checks : Option (List SafetyCheck) := none
  summary : Option (List String) := none
  output : Option OutputVal := none
  acknowledged_safety_checks : Option (List SafetyCheck) := none
deriving Repr, DecidableEq

/-- The step record `handle_item` builds and hands to the logger. -/
structure StepRecord where
  prompt_id : Option String := none
  type : Option String := none
  role : Option String := none
  content : Option (List String) := none
  name : Option String := none
  arguments : Option Dict := none
  action : Option Dict := none
  call_id : Option String := none
  screenshot : Option String := none
  current_url : Option String := none
  page_metadata : Option Dict := none
  summary : Option (List String) := none
deriving Repr, DecidableEq

/-- The Python exceptions the dispatcher and loop can raise. -/
inductive PyError where
  | keyError (k : String)
  | indexError
  | typeError (msg : String)
  | valueError (msg : String)
  | attributeError (name : String)
deriving Repr, DecidableEq

/-- The safety-acknowledgment callback. `default` is the constructor default
`lambda: False`, a function of zero parameters; `fn f` is a proper
single-argument callback. Invoking `default` with a message argument raises
`TypeError`, as the Python call `self.acknowledge_safety_check_callback(message)`
does. -/
inductive AckCallback where
  | default
  | fn (f : String → Bool)

/-- Observable side effects, in the order they happen. -/
inductive Event where
  | execOp (name : String) (args : Dict)
  | screenshot
  | ask (message : String)
  | serviceCall (k : Nat)
  | logged (r : StepRecord)
deriving Repr, DecidableEq

/-- The target surface (`Computer`): environment kind, the set of operation
names it exposes (`hasattr`/`getattr` succeed exactly on these), the
screenshot it returns, and the browser-only introspection results.
`pageMetadata = none` models a surface without a `get_page_metadata`
attribute; `some none` one whose `get_page_metadata()` returns a falsy value
(folded to `{}` by `or {}`); `some (some d)` one returning the dict `d`. -/
structure Computer where
  environment : String
  dimensions : Nat × Nat := (1024, 768)
  ops : List String := []
  screenshotData : String := ""
  currentUrl : String := ""
  pageMetadata : Option (Option Dict) := none

/-- The agent configuration `handle_item` and `run_full_turn` read.
`blocklisted` — Modelled from the spec: `utils.check_blocklisted_url` is not
among the sources; per the spec it validates the current URL against a
denylist and is fatal when the URL is on it. `logger` records whether a
logging sink is attached (`self.logger` not `None`). -/
structure Agent where
  computer : Computer
  acknowledge_safety_check_callback : AckCallback := .default
  print_steps : Bool := true
  debug : Bool := false
  show_images : Bool := false
  logger : Bool := true
  current_prompt_id : Option String := none
  blocklisted : String → Bool := fun _ => false

/-- Emit the finished step record to the logger (when one is attached) and
return the follow-up items. -/
def finishRecord (ag : Agent) (record : StepRecord) (outs : List Item) :
    List Event × Except PyError (List Item) :=
  (if ag.logger then [Event.logged record] else [], Except.ok outs)

/-- `print(item["content"][0]["text"])`: raises `KeyError` when the item has
no `content`, `IndexError` when the list is empty. -/
def printFirstText (item : Item) : Except PyError Unit :=
  match item.content with
  | none => .error (.keyError "content")
  | some [] => .error .indexError
  | some (_ :: _) => .ok ()

/-- The `message` / `max-actions` branch of `handle_item`. -/
def handleMessage (ag : Agent) (item : Item) (record : StepRecord) :
    List Event × Except PyError (List Item) :=
  match (if ag.print_steps then printFirstText item else .ok ()) with
  | .error e => ([], .error e)
  | .ok _ => finishRecord ag { record with role := item.role, content := item.content } []

/-- The `function_call` branch: parse the arguments, best-effort invoke the
equally-named surface operation when it exists, and always return one
`function_call_output` with output `"success"`. -/
def handleFunctionCall (ag : Agent) (item : Item) (record : StepRecord) :
    List Event × Except PyError (List Item) :=
  match item.name with
  | none => ([], .error (.keyError "name"))
  | some nm =>
    match item.arguments with
    | none => ([], .error (.keyError "arguments"))
    | some args =>
      let evs := if ag.computer.ops.contains nm then [Event.execOp nm args] else []
      match item.call_id with
      | none => (evs, .error (.keyError "call_id"))
      | some cid =>
        let out : Item :=
          { type := "function_call_output", call_id := some cid, output := some (.str "success") }
        let (evL, r) := finishRecord ag { record with name := some nm, arguments := some args } [out]
        (evs ++ evL, r)

/-- The safety-check loop: invoke the callback on each pending check's message
in list order; the first decline raises `ValueError`, and invoking the
zero-parameter default callback with an argument raises `TypeError`. -/
def runChecks (cb : AckCallback) : List SafetyCheck → List Event × Except PyError Unit
  | [] => ([], .ok ())
  | c :: rest =>
    match cb with
    | .default =>
      ([], .error (.typeError
        "acknowledge_safety_check_callback() takes 0 positional arguments but 1 was given"))
    | .fn f =>
      if f c.message then
        let (ev, r) := runChecks cb rest
        (Event.ask c.message :: ev, r)
      else
        ([Event.ask c.message],
         .error (.valueError ("Safety check failed: " ++ c.message ++
           ". Cannot continue with unacknowledged safety checks.")))

/-- The surface-provided page metadata after `get_metadata() or {}`:
`[]` when the attribute is missing or the call returned a falsy value. -/
def surfaceMetadata (c : Computer) : Dict :=
  match c.pageMetadata with
  | none => []
  | some none => []
  | some (some d) => d

/-- The browser-only augmentation of a `computer_call_output`: fetch the
current URL, validate it against the denylist (fatal when blocklisted),
fetch optional page metadata, backfill `full_url` with the raw URL when
missing or falsy, and attach URL/metadata to the output payload and record. -/
def browserAugment (ag : Agent) (payload : ImagePayload) (record : StepRecord) :
    Except PyError (ImagePayload × StepRecord) :=
  if ag.computer.environment == "browser" then
    let current_url := ag.computer.currentUrl
    if ag.blocklisted current_url then
      .error (.valueError ("Blocked URL: " ++ current_url))
    else
      let metadata0 := surfaceMetadata ag.computer
      let metadata :=
        if truthy (dget metadata0 "full_url") then metadata0
        else dset metadata0 "full_url" current_url
      let payload1 := { payload with current_url := some ((dget metadata "full_url").getD current_url) }
      if metadata.isEmpty then
        .ok (payload1, { record with current_url := some current_url })
      else
        .ok ({ payload1 with page_metadata := some metadata },
             { record with page_metadata := some metadata })
  else
    .ok (payload, record)

/-- The `computer_call` branch: look up the surface operation named by the
action's `type` (missing operation raises `AttributeError`), invoke it,
capture a screenshot, evaluate pending safety checks in order, then build
the single `computer_call_output` with the browser augmentation applied. -/
def handleComputerCall (ag : Agent) (item : Item) (record : StepRecord) :
    List Event × Except PyError (List Item) :=
  match item.action with
  | none => ([], .error (.keyError "action"))
  | some action =>
    match dget action "type" with
    | none => ([], .error (.keyError "type"))
    | some action_type =>
      let action_args := action.filter (fun p => p.1 != "type")
      if ag.computer.ops.contains action_type then
        let evExec := [Event.execOp action_type action_args, Event.screenshot]
        let screenshot_base64 := ag.computer.screenshotData
        let pending := item.pending_safety_checks.getD []
        let (evChecks, rc) := runChecks ag.acknowledge_safety_check_callback pending
        match rc with
        | .error e => (evExec ++ evChecks, .error e)
        | .ok _ =>
          match item.call_id with
          | none => (evExec ++ evChecks, .error (.keyError "call_id"))
          | some cid =>
            let payload0 : ImagePayload :=
              { type := "input_image",
                image_url := "data:image/png;base64," ++ screenshot_base64 }
            match browserAugment ag payload0 record with
            | .error e => (evExec ++ evChecks, .error e)
            | .ok (payload, record1) =>
              let out : Item :=
                { type := "computer_call_output", call_id := some cid,
                  acknowledged_safety_checks := some pending,
                  output := some (.image payload) }
              let record2 :=
                { record1 with action := some action, call_id := item.call_id,
                               screenshot := some screenshot_base64 }
              let (evL, r) := finishRecord ag record2 [out]
              (evExec ++ evChecks ++ evL, r)
      else ([], .error (.attributeError action_type))

/-- The `reasoning` branch: record the summary, no follow-up items. -/
def handleReasoning (ag : Agent) (item : Item) (record : StepRecord) :
    List Event × Except PyError (List Item) :=
  finishRecord ag { record with summary := item.summary } []

/-- `Agent.handle_item`: dispatch one item, returning the follow-up output
items, with the emitted trace of side effects. -/
def handle_item (ag : Agent) (item : Item) : List Event × Except PyError (List Item) :=
  let record : StepRecord := { prompt_id := ag.current_prompt_id, type := some item.type }
  if item.type == "message" || item.type == "max-actions" then
    handleMessage ag item record
  else if item.type == "function_call" then
    handleFunctionCall ag item record
  else if item.type == "computer_call" then
    handleComputerCall ag item record
  else if item.type == "reasoning" then
    handleReasoning ag item record
  else
    finishRecord ag record []

/-- Modelled from the spec: the response service (`utils.create_response` is
not among the sources) returns `{output: Item[]}`, with the `output` field
possibly absent. The service is an oracle indexed by how many calls were
made before; the request body (history and tool schema) does not constrain
the model. -/
structure Response where
  output : Option (List Item)

/-- The response-service oracle: the response to the k-th call. -/
abbrev Service := Nat → Response

/-- The turn loop's mutable state: accumulated `new_items`, the action
counter, and how many service calls were made. -/
structure LoopState where
  new_items : List Item
  action_count : Nat
  service_calls : Nat
deriving Repr, DecidableEq

/-- Outcome of one iteration of the `while True` loop. -/
inductive StepOut where
  | done (st : LoopState)
  | next (st : LoopState)
  | fatal (e : PyError) (st : LoopState)
deriving Repr, DecidableEq

/-- `new_items and new_items[-1].get("role") == "assistant"`. -/
def lastRoleAssistant (items : List Item) : Bool :=
  match items.getLast? with
  | none => false
  | some i => i.role == some "assistant"

/-- The locally synthesized `max-actions` limit item. -/
def limitMessage (max_actions : Nat) : Item :=
  { type := "max-actions"
    role := some "assistant"
    content := some [s!"Reached the configured maximum of {max_actions} actions without a final assistant response. Stopping further processing."] }

/-- Dispatch every item of one response in order, concatenating traces and
follow-up items; the first dispatcher error aborts. -/
def dispatchItems (ag : Agent) : List Item → List Event × Except PyError (List Item)
  | [] => ([], .ok [])
  | i :: rest =>
    let (ev, r) := handle_item ag i
    match r with
    | .error e => (ev, .error e)
    | .ok outs =>
      let (ev2, r2) := dispatchItems ag rest
      match r2 with
      | .error e => (ev ++ ev2, .error e)
      | .ok outs2 => (ev ++ ev2, .ok (outs ++ outs2))

/-- The action-ceiling branch: append the limit item, run it through the
dispatcher, and stop. -/
def ceilingStep (ag : Agent) (st : LoopState) (n : Nat) : List Event × StepOut :=
  let lm := limitMessage n
  let st1 : LoopState := { st with new_items := st.new_items ++ [lm] }
  let (ev, r) := handle_item ag lm
  match r with
  | .error e => (ev, .fatal e st1)
  | .ok outs => (ev, .done { st1 with new_items := st1.new_items ++ outs })

/-- One service round-trip: call the service, fail fast when the response has
no `output` (`ValueError` under debug, `KeyError` from the subscript
otherwise), else append the output items, dispatch each in order appending
follow-ups, and increment the action counter once. On a dispatcher error the
transient partial `new_items` is discarded with the raise, so the fatal state
carries the items appended before dispatch began. -/
def serviceRound (ag : Agent) (svc : Service) (st : LoopState) : List Event × StepOut :=
  let resp := svc st.service_calls
  let st1 : LoopState := { st with service_calls := st.service_calls + 1 }
  let ev0 := [Event.serviceCall st.service_calls]
  match resp.output with
  | none =>
    if ag.debug then (ev0, .fatal (.valueError "No output from model") st1)
    else (ev0, .fatal (.keyError "output") st1)
  | some outs =>
    let st2 := { st1 with new_items := st1.new_items ++ outs }
    let (ev, r) := dispatchItems ag outs
    match r with
    | .error e => (ev0 ++ ev, .fatal e st2)
    | .ok follow =>
      (ev0 ++ ev,
       .next { st2 with new_items := st2.new_items ++ follow,
                        action_count := st2.action_count + 1 })

/-- One iteration of the `while True` loop: terminal check, then ceiling
check, then a service round-trip. -/
def loopIter (ag : Agent) (svc : Service) (max_actions : Option Nat) (st : LoopState) :
    List Event × StepOut :=
  if lastRoleAssistant st.new_items then ([], .done st)
  else
    match max_actions with
    | some n => if n ≤ st.action_count then ceilingStep ag st n else serviceRound ag svc st
    | none => serviceRound ag svc st

/-- Result of running the loop under a fuel bound: `ok` mirrors a normal
return of `run_full_turn`, `fatal` a raised exception, `outOfFuel` a run
that did not terminate within the bound. -/
inductive RunResult where
  | ok (st : LoopState)
  | fatal (e : PyError) (st : LoopState)
  | outOfFuel (st : LoopState)
deriving Repr, DecidableEq

/-- Iterate `loopIter` under a fuel bound, concatenating traces. -/
def runLoop (ag : Agent) (svc : Service) (max_actions : Option Nat) :
    Nat → LoopState → List Event × RunResult
  | 0, st => ([], .outOfFuel st)
  | Nat.succ fuel, st =>
    match loopIter ag svc max_actions st with
    | (ev, .done st1) => (ev, .ok st1)
    | (ev, .fatal e st1) => (ev, .fatal e st1)
    | (ev, .next st1) =>
      let (ev2, r) := runLoop ag svc max_actions fuel st1
      (ev ++ ev2, r)

/-- `Agent.run_full_turn`: run the loop from the empty `new_items` with both
counters zero. The caller's `input_items` only ever travel to the service,
which the oracle already abstracts, so they do not appear here. -/
def run_full_turn (ag : Agent) (svc : Service) (max_actions : Option Nat) (fuel : Nat) :
    List Event × RunResult :=
  runLoop ag svc max_actions fuel { new_items := [], action_count := 0, service_calls := 0 }

/-- The loop state a run ended in, whichever way it ended. -/
def RunResult.state : RunResult → LoopState
  | .ok st => st
  | .fatal _ st => st
  | .outOfFuel st => st

/-- Did the fuel bound cut the run short? -/
def RunResult.cutShort : RunResult → Bool
  | .outOfFuel _ => true
  | _ => false

/-- The service items obey the spec's data model: only `Message` items (and
the locally synthesized marker, which the service never produces) carry a
role, so a service item with role `"assistant"` has type `"message"`. -/
def WFService (svc : Service) : Prop :=
  ∀ k, ∀ i ∈ ((svc k).output.getD []), i.role = some "assistant" → i.type = "message"

/-- The `current_url` attached to the single tool-output item of a dispatch
result, when there is one. -/
def recordedCurrentUrl : Except PyError (List Item) → Option String
  | .ok [o] =>
    match o.output with
    | some (.image p) => p.current_url
    | _ => none
  | _ => none

/-- The invariant the turn loop maintains on `new_items`: anything carrying
role `"assistant"` is a message or the synthesized limit marker. -/
def RoleInv (items : List Item) : Prop :=
  ∀ i ∈ items, i.role = some "assistant" → i.type = "message" ∨ i.type = "max-actions"

/-! Concrete instances used to witness the theorems below. -/

/-- A desktop surface exposing a `click` operation. -/
def wComputer : Computer :=
  { environment := "desktop", ops := ["click"], screenshotData := "IMG" }

/-- An agent on `wComputer` that acknowledges every safety check. -/
def wAgent : Agent :=
  { computer := wComputer, acknowledge_safety_check_callback := .fn (fun _ => true) }

/-- An agent on `wComputer` that declines every safety check. -/
def wAgentDecline : Agent :=
  { computer := wComputer, acknowledge_safety_check_callback := .fn (fun _ => false) }

/-- An agent on `wComputer` left with the constructor-default callback. -/
def wAgentDefault : Agent := { computer := wComputer }

/-- A `computer_call` requesting `click(x=10)` with no pending checks. -/
def wClick : Item :=
  { type := "computer_call", call_id := some "c1",
    action := some [("type", "click"), ("x", "10")],
    pending_safety_checks := some [] }

/-- The same click with one pending safety check. -/
def wClickChecked : Item := { wClick with pending_safety_checks := some [⟨"danger"⟩] }

/-- A `function_call` whose name matches no surface operation. -/
def wFnCall : Item :=
  { type := "function_call", name := some "frobnicate", arguments := some [("a", "1")],
    call_id := some "f1" }

/-- An assistant message item. -/
def wAssistant : Item :=
  { type := "message", role := some "assistant", content := some ["done"] }

/-- A service that always answers with one assistant message. -/
def wSvcMsg : Service := fun _ => { output := some [wAssistant] }

/-- A service that always answers with two computer calls. -/
def wSvcTwoCalls : Service := fun _ => { output := some [wClick, wClick] }

/-- The `computer_call_output` that dispatching `wClick` on `wAgent` yields. -/
def wClickOutput : Item :=
  { type := "computer_call_output", call_id := some "c1",
    acknowledged_safety_checks := some [],
    output := some (.image { type := "input_image", image_url := "data:image/png;base64,IMG" }) }

/-- The loop state after one `wSvcTwoCalls` round-trip from the start state. -/
def wTwoCallState : LoopState :=
  { new_items := [wClick, wClick, wClickOutput, wClickOutput],
    action_count := 1, service_calls := 1 }

/-- A service whose responses have no `output` field. -/
def wSvcNoOutput : Service := fun _ => { output := none }

/-- A browser surface whose metadata carries a non-empty `full_url`. -/
def wBrowserFull : Computer :=
  { environment := "browser", ops := ["click"], screenshotData := "I",
    currentUrl := "http://raw", pageMetadata := some (some [("full_url", "http://full")]) }

/-- A browser surface whose metadata lacks `full_url` entirely. -/
def wBrowserNoFull : Computer :=
  { environment := "browser", ops := ["click"], screenshotData := "I",
    currentUrl := "http://raw", pageMetadata := some (some [("title", "t")]) }

/-- An acknowledging agent on `wBrowserFull`. -/
def wAgentBrowserFull : Agent :=
  { computer := wBrowserFull, acknowledge_safety_check_callback := .fn (fun _ => true) }

/-- An acknowledging agent on `wBrowserNoFull`. -/
def wAgentBrowserNoFull : Agent :=
  { computer := wBrowserNoFull, acknowledge_safety_check_callback := .fn (fun _ => true) }

/-! ### Supporting lemmas -/

theorem finishRecord_snd (ag : Agent) (r : StepRecord) (outs : List Item) :
    (finishRecord ag r outs).2 = .ok outs := rfl

/-- Declining the first un-acknowledged check: the gate is invoked on the
acknowledged prefix and on the declined check, in order, and raises the
`ValueError` naming the declined message. -/
theorem runChecks_decline (f : String → Bool) (pre : List SafetyCheck) (c : SafetyCheck)
    (post : List SafetyCheck) (hpre : ∀ c0 ∈ pre, f c0.message = true)
    (hc : f c.message = false) :
    runChecks (.fn f) (pre ++ c :: post) =
      (pre.map (fun c0 => Event.ask c0.message) ++ [Event.ask c.message],
       .error (.valueError ("Safety check failed: " ++ c.message ++
         ". Cannot continue with unacknowledged safety checks."))) := by
  induction pre with
  | nil => simp [runChecks, hc]
  | cons c0 rest ih =>
    have h0 : f c0.message = true := hpre c0 (by simp)
    have ih2 := ih (fun x hx => hpre x (by simp [hx]))
    simp [runChecks, h0, ih2]

theorem runChecks_accept (f : String → Bool) (checks : List SafetyCheck)
    (hall : ∀ c0 ∈ checks, f c0.message = true) :
    runChecks (.fn f) checks =
      (checks.map (fun c0 => Event.ask c0.message), .ok ()) := by
  induction checks with
  | nil => simp [runChecks]
  | cons c0 rest ih =>
    have h0 : f c0.message = true := hall c0 (by simp)
    have ih2 := ih (fun x hx => hall x (by simp [hx]))
    simp [runChecks, h0, ih2]

/-- On a `computer_call`, `handle_item` reduces to the computer-call branch. -/
theorem handle_item_computer_call (ag : Agent) (item : Item)
    (h : item.type = "computer_call") :
    handle_item ag item =
      handleComputerCall ag item { prompt_id := ag.current_prompt_id, type := some item.type } := by
  simp [handle_item, h]

/-- Full characterization of a dispatch whose first declined safety check is
`c`, after the acknowledged prefix `pre`: the surface action runs, the
screenshot is taken, the gate is asked in list order up to the decline, and
the dispatch raises the `ValueError` naming the declined message — no output
item, no log record. -/
theorem handle_item_decline_spec (ag : Agent) (item : Item) (f : String → Bool)
    (pre post : List SafetyCheck) (c : SafetyCheck) (acts : Dict) (ty : String)
    (hcb : ag.acknowledge_safety_check_callback = .fn f)
    (hty0 : item.type = "computer_call")
    (hact : item.action = some acts)
    (hty : dget acts "type" = some ty)
    (hops : ag.computer.ops.contains ty = true)
    (hpend : item.pending_safety_checks = some (pre ++ c :: post))
    (hpre : ∀ c0 ∈ pre, f c0.message = true)
    (hc : f c.message = false) :
    handle_item ag item =
      (Event.execOp ty (acts.filter (fun p => p.1 != "type")) :: Event.screenshot ::
        (pre.map (fun c0 => Event.ask c0.message) ++ [Event.ask c.message]),
       .error (.valueError ("Safety check failed: " ++ c.message ++
         ". Cannot continue with unacknowledged safety checks."))) := by
  rw [handle_item_computer_call ag item hty0]
  have hrw := runChecks_decline f pre c post hpre hc
  simp [handleComputerCall, hact, hty, hops, hpend, hcb, hrw]
  simpa using hops

/-! ### Claim theorems on the item dispatcher -/

/-- C2: when a `ComputerCall`'s pending safety checks contain a check the
acknowledgment callback declines, `handle_item` raises the fatal `ValueError`
naming the declined check's message and returns no `ComputerCallOutput`; the
gate is invoked in list order and stops at the first decline (the trace asks
exactly the acknowledged prefix and the declined check, and emits no output
or log event). -/
theorem computer_call_declined_no_output (ag : Agent) (item : Item) (f : String → Bool)
    (pre post : List SafetyCheck) (c : SafetyCheck) (acts : Dict) (ty : String)
    (hcb : ag.acknowledge_safety_check_callback = .fn f)
    (hty0 : item.type = "computer_call")
    (hact : item.action = some acts)
    (hty : dget acts "type" = some ty)
    (hops : ag.computer.ops.contains ty = true)
    (hpend : item.pending_safety_checks = some (pre ++ c :: post))
    (hpre : ∀ c0 ∈ pre, f c0.message = true)
    (hc : f c.message = false) :
    (handle_item ag item).2 = .error (.valueError ("Safety check failed: " ++ c.message ++
        ". Cannot continue with unacknowledged safety checks.")) ∧
    (handle_item ag item).1 =
      Event.execOp ty (acts.filter (fun p => p.1 != "type")) :: Event.screenshot ::
        (pre.map (fun c0 => Event.ask c0.message) ++ [Event.ask c.message]) := by
  rw [handle_item_decline_spec ag item f pre post c acts ty hcb hty0 hact hty hops hpend hpre hc]
  exact ⟨rfl, rfl⟩

/-- Witness for C2: the declining agent on a click with one pending check. -/
theorem computer_call_declined_no_output_witness :
    (handle_item wAgentDecline wClickChecked).2 =
      .error (.valueError ("Safety check failed: " ++ "danger" ++
        ". Cannot continue with unacknowledged safety checks.")) ∧
    (handle_item wAgentDecline wClickChecked).1 =
      Event.execOp "click" ([("type", "click"), ("x", "10")].filter (fun p => p.1 != "type")) ::
        Event.screenshot ::
        (([] : List SafetyCheck).map (fun c0 => Event.ask c0.message) ++ [Event.ask "danger"]) :=
  computer_call_declined_no_output wAgentDecline wClickChecked (fun _ => false)
    [] [] ⟨"danger"⟩ [("type", "click"), ("x", "10")] "click"
    rfl rfl rfl (by decide) (by decide) rfl (by intro c0 hc0; cases hc0) rfl

/-- C10: on a `ComputerCall` whose safety gate declines, the surface action
and the screenshot are the first two trace events — they happen before any
gate invocation — and everything after them is gate invocations only; the
dispatch then fails, so the side effect has occurred and only the
`ComputerCallOutput` is withheld. -/
theorem action_precedes_safety_gate (ag : Agent) (item : Item) (f : String → Bool)
    (pre post : List SafetyCheck) (c : SafetyCheck) (acts : Dict) (ty : String)
    (hcb : ag.acknowledge_safety_check_callback = .fn f)
    (hty0 : item.type = "computer_call")
    (hact : item.action = some acts)
    (hty : dget acts "type" = some ty)
    (hops : ag.computer.ops.contains ty = true)
    (hpend : item.pending_safety_checks = some (pre ++ c :: post))
    (hpre : ∀ c0 ∈ pre, f c0.message = true)
    (hc : f c.message = false) :
    (∃ rest, (handle_item ag item).1 =
        Event.execOp ty (acts.filter (fun p => p.1 != "type")) :: Event.screenshot :: rest ∧
        ∀ e ∈ rest, ∃ m, e = Event.ask m) ∧
    ∃ err, (handle_item ag item).2 = .error err := by
  rw [handle_item_decline_spec ag item f pre post c acts ty hcb hty0 hact hty hops hpend hpre hc]
  refine ⟨⟨_, rfl, ?_⟩, ⟨_, rfl⟩⟩
  intro e he
  rcases List.mem_append.mp he with h1 | h1
  · rcases List.mem_map.mp h1 with ⟨c0, _, h2⟩
    exact ⟨c0.message, h2.symm⟩
  · simp only [List.mem_singleton] at h1
    exact ⟨c.message, h1⟩

/-- Witness for C10: the declining agent on a click with one pending check. -/
theorem action_precedes_safety_gate_witness :
    (∃ rest, (handle_item wAgentDecline wClickChecked).1 =
        Event.execOp "click" ([("type", "click"), ("x", "10")].filter (fun p => p.1 != "type")) ::
          Event.screenshot :: rest ∧
        ∀ e ∈ rest, ∃ m, e = Event.ask m) ∧
    ∃ err, (handle_item wAgentDecline wClickChecked).2 = .error err :=
  action_precedes_safety_gate wAgentDecline wClickChecked (fun _ => false)
    [] [] ⟨"danger"⟩ [("type", "click"), ("x", "10")] "click"
    rfl rfl rfl (by decide) (by decide) rfl (by intro c0 hc0; cases hc0) rfl

/-- C9: with the constructor-default callback (`lambda: False`, a function of
zero parameters), any `ComputerCall` with at least one pending safety check
makes `handle_item` raise `TypeError` — the invocation passes the check's
message to a zero-argument function — so the run aborts, but not through the
documented declined-check `ValueError` path, and the gate body never runs. -/
theorem default_callback_raises_type_error (ag : Agent) (item : Item)
    (acts : Dict) (ty : String) (c : SafetyCheck) (rest : List SafetyCheck)
    (hcb : ag.acknowledge_safety_check_callback = .default)
    (hty0 : item.type = "computer_call")
    (hact : item.action = some acts)
    (hty : dget acts "type" = some ty)
    (hops : ag.computer.ops.contains ty = true)
    (hpend : item.pending_safety_checks = some (c :: rest)) :
    handle_item ag item =
      ([Event.execOp ty (acts.filter (fun p => p.1 != "type")), Event.screenshot],
       .error (.typeError
         "acknowledge_safety_check_callback() takes 0 positional arguments but 1 was given")) := by
  rw [handle_item_computer_call ag item hty0]
  simp [handleComputerCall, hact, hty, hops, hpend, hcb, runChecks]
  simpa using hops

/-- Witness for C9: the default-callback agent on a click with one pending
check. -/
theorem default_callback_raises_type_error_witness :
    handle_item wAgentDefault wClickChecked =
      ([Event.execOp "click" ([("type", "click"), ("x", "10")].filter (fun p => p.1 != "type")),
        Event.screenshot],
       .error (.typeError
         "acknowledge_safety_check_callback() takes 0 positional arguments but 1 was given")) :=
  default_callback_raises_type_error wAgentDefault wClickChecked
    [("type", "click"), ("x", "10")] "click" ⟨"danger"⟩ []
    rfl rfl rfl rfl (by decide) rfl

/-- C8: a `ComputerCall` whose pending safety checks are empty (the list is
`[]` or the key is absent) never invokes the acknowledgment callback: the
dispatch trace contains no gate invocation, whatever the callback and
whatever else happens. -/
theorem empty_checks_never_ask (ag : Agent) (item : Item)
    (hty0 : item.type = "computer_call")
    (hpend : item.pending_safety_checks.getD [] = []) :
    ∀ m, Event.ask m ∉ (handle_item ag item).1 := by
  intro m
  rw [handle_item_computer_call ag item hty0]
  cases hact : item.action with
  | none => simp [handleComputerCall, hact]
  | some acts =>
    cases hty : dget acts "type" with
    | none => simp [handleComputerCall, hact, hty]
    | some ty =>
      by_cases hops : ty ∈ ag.computer.ops
      · have hc : ag.computer.ops.contains ty = true := by simpa using hops
        cases hcid : item.call_id with
        | none => simp [handleComputerCall, hact, hty, hc, hops, hpend, runChecks, hcid]
        | some cid =>
          rcases hba : browserAugment ag
              { type := "input_image",
                image_url := "data:image/png;base64," ++ ag.computer.screenshotData }
              { prompt_id := ag.current_prompt_id, type := some item.type } with e | pr
          · simp [handleComputerCall, hact, hty, hc, hops, hpend, runChecks, hcid, hba]
          · obtain ⟨payload, record1⟩ := pr
            by_cases hl : ag.logger <;>
              simp [handleComputerCall, hact, hty, hc, hops, hpend, runChecks, hcid, hba,
                finishRecord, hl]
      · simp [handleComputerCall, hact, hty, hops]

/-- Witness for C8: the acknowledging agent on a click with no pending
checks. -/
theorem empty_checks_never_ask_witness :
    Event.ask "danger" ∉ (handle_item wAgent wClick).1 :=
  empty_checks_never_ask wAgent wClick rfl rfl "danger"

/-- C7: a `FunctionCall` whose name matches no surface operation raises no
error and executes no surface operation, yet still returns exactly one
`FunctionCallOutput` carrying the item's `call_id` and output `"success"`,
and still emits a step record: the trace is exactly one log event. -/
theorem unmatched_function_call_soft (ag : Agent) (item : Item)
    (nm : String) (args : Dict) (cid : String)
    (hty0 : item.type = "function_call")
    (hnm : item.name = some nm)
    (hops : ag.computer.ops.contains nm = false)
    (hargs : item.arguments = some args)
    (hcid : item.call_id = some cid)
    (hlog : ag.logger = true) :
    handle_item ag item =
      ([Event.logged { prompt_id := ag.current_prompt_id, type := some "function_call",
                       name := some nm, arguments := some args }],
       .ok [{ type := "function_call_output", call_id := some cid,
              output := some (.str "success") }]) := by
  simp [handle_item, hty0, handleFunctionCall, hnm, hops, hargs, hcid, finishRecord, hlog]
  simpa using hops

/-- Witness for C7: a `frobnicate` call against a surface exposing only
`click`. -/
theorem unmatched_function_call_soft_witness :
    handle_item wAgent wFnCall =
      ([Event.logged { prompt_id := wAgent.current_prompt_id, type := some "function_call",
                       name := some "frobnicate", arguments := some [("a", "1")] }],
       .ok [{ type := "function_call_output", call_id := some "f1",
              output := some (.str "success") }]) :=
  unmatched_function_call_soft wAgent wFnCall "frobnicate" [("a", "1")] "f1"
    rfl rfl (by decide) rfl rfl rfl

/-! ### Supporting lemmas on the turn loop -/

/-- Dispatching the synthesized limit item always succeeds with no follow-up
items: it goes through the `message`/`max-actions` branch and its content is
non-empty. -/
theorem handle_item_limitMessage (ag : Agent) (n : Nat) :
    (handle_item ag (limitMessage n)).2 = .ok [] := by
  by_cases hp : ag.print_steps <;>
    simp [handle_item, limitMessage, handleMessage, printFirstText, finishRecord, hp]

/-- The ceiling branch always stops: it appends exactly the limit item. -/
theorem ceilingStep_done (ag : Agent) (st : LoopState) (n : Nat) :
    ∃ ev, ceilingStep ag st n =
      (ev, .done { st with new_items := st.new_items ++ [limitMessage n] }) := by
  have h2 := handle_item_limitMessage ag n
  cases hh : handle_item ag (limitMessage n) with
  | mk ev r =>
    rw [hh] at h2
    simp only [] at h2
    subst h2
    exact ⟨ev, by simp [ceilingStep, hh]⟩

/-- A service round-trip either turns fatal (the service call still counted)
or continues with the action counter and the call counter each bumped by
one — it never stops the loop by itself. -/
theorem serviceRound_out (ag : Agent) (svc : Service) (st : LoopState) (ev : List Event)
    (o : StepOut) (h : serviceRound ag svc st = (ev, o)) :
    (∃ e st1, o = .fatal e st1 ∧ st1.action_count = st.action_count ∧
      st1.service_calls = st.service_calls + 1) ∨
    (∃ st1, o = .next st1 ∧ st1.action_count = st.action_count + 1 ∧
      st1.service_calls = st.service_calls + 1) := by
  simp only [serviceRound] at h
  cases hout : (svc st.service_calls).output with
  | none =>
    by_cases hd : ag.debug <;> simp [hout, hd] at h <;>
      exact Or.inl ⟨_, _, h.2.symm, rfl, rfl⟩
  | some outs =>
    cases hdisp : (dispatchItems ag outs).2 with
    | error e =>
      simp [hout, hdisp] at h
      exact Or.inl ⟨_, _, h.2.symm, rfl, rfl⟩
    | ok follow =>
      simp [hout, hdisp] at h
      exact Or.inr ⟨_, h.2.symm, rfl, rfl⟩

/-- The items a continuing round-trip appends: the response's output items
followed by the follow-up items their dispatch produced. -/
theorem serviceRound_next_items (ag : Agent) (svc : Service) (st : LoopState)
    (ev : List Event) (st1 : LoopState)
    (h : serviceRound ag svc st = (ev, .next st1)) :
    ∃ outs follow, (svc st.service_calls).output = some outs ∧
      (dispatchItems ag outs).2 = .ok follow ∧
      st1.new_items = (st.new_items ++ outs) ++ follow := by
  simp only [serviceRound] at h
  cases hout : (svc st.service_calls).output with
  | none =>
    by_cases hd : ag.debug <;> simp [hout, hd] at h
  | some outs =>
    cases hdisp : (dispatchItems ag outs).2 with
    | error e => simp [hout, hdisp] at h
    | ok follow =>
      simp [hout, hdisp] at h
      exact ⟨outs, follow, rfl, hdisp, by rw [← h.2]; simp [List.append_assoc]⟩

/-- A loop iteration that stops leaves both counters unchanged. -/
theorem loopIter_done_counters (ag : Agent) (svc : Service) (maxA : Option Nat)
    (st : LoopState) (ev : List Event) (st1 : LoopState)
    (h : loopIter ag svc maxA st = (ev, .done st1)) :
    st1.action_count = st.action_count ∧ st1.service_calls = st.service_calls := by
  unfold loopIter at h
  by_cases hterm : lastRoleAssistant st.new_items = true
  · simp [hterm] at h
    cases h.2
    exact ⟨rfl, rfl⟩
  · simp only [hterm, if_false, Bool.not_eq_true] at h
    rw [if_neg (by simp [hterm])] at h
    cases maxA with
    | none =>
      rcases serviceRound_out ag svc st ev _ h with ⟨e, st2, hf, _, _⟩ | ⟨st2, hn, _, _⟩
      · cases hf
      · cases hn
    | some n =>
      simp only [] at h
      by_cases hceil : n ≤ st.action_count
      · rw [if_pos hceil] at h
        rcases ceilingStep_done ag st n with ⟨ev0, hcd⟩
        rw [hcd] at h
        simp only [Prod.mk.injEq, StepOut.done.injEq] at h
        rw [← h.2]
        exact ⟨rfl, rfl⟩
      · rw [if_neg hceil] at h
        rcases serviceRound_out ag svc st ev _ h with ⟨e, st2, hf, _, _⟩ | ⟨st2, hn, _, _⟩
        · cases hf
        · cases hn

/-- A loop iteration that turns fatal only does so inside a service
round-trip: the call counter is bumped and the ceiling had not been hit. -/
theorem loopIter_fatal_counters (ag : Agent) (svc : Service) (n : Nat)
    (st : LoopState) (ev : List Event) (e : PyError) (st1 : LoopState)
    (h : loopIter ag svc (some n) st = (ev, .fatal e st1)) :
    st1.action_count = st.action_count ∧ st1.service_calls = st.service_calls + 1 ∧
      st.action_count < n := by
  unfold loopIter at h
  by_cases hterm : lastRoleAssistant st.new_items = true
  · simp [hterm] at h
  · rw [if_neg (by simp [hterm])] at h
    simp only [] at h
    by_cases hceil : n ≤ st.action_count
    · rw [if_pos hceil] at h
      rcases ceilingStep_done ag st n with ⟨ev0, hcd⟩
      rw [hcd] at h
      simp at h
    · rw [if_neg hceil] at h
      rcases serviceRound_out ag svc st ev _ h with ⟨e2, st2, hf, h1, h2⟩ | ⟨st2, hn, _, _⟩
      · cases hf
        exact ⟨h1, h2, Nat.lt_of_not_le hceil⟩
      · cases hn

/-- A loop iteration that continues is a completed service round-trip: both
counters are bumped by exactly one and the ceiling had not been hit. -/
theorem loopIter_next_counters (ag : Agent) (svc : Service) (maxA : Option Nat)
    (st : LoopState) (ev : List Event) (st1 : LoopState)
    (h : loopIter ag svc maxA st = (ev, .next st1)) :
    st1.action_count = st.action_count + 1 ∧ st1.service_calls = st.service_calls + 1 ∧
      ∀ n, maxA = some n → st.action_count < n := by
  unfold loopIter at h
  by_cases hterm : lastRoleAssistant st.new_items = true
  · simp [hterm] at h
  · rw [if_neg (by simp [hterm])] at h
    cases maxA with
    | none =>
      rcases serviceRound_out ag svc st ev _ h with ⟨e, st2, hf, _, _⟩ | ⟨st2, hn, h1, h2⟩
      · cases hf
      · cases hn
        exact ⟨h1, h2, fun n hn => by cases hn⟩
    | some n =>
      simp only [] at h
      by_cases hceil : n ≤ st.action_count
      · rw [if_pos hceil] at h
        rcases ceilingStep_done ag st n with ⟨ev0, hcd⟩
        rw [hcd] at h
        simp at h
      · rw [if_neg hceil] at h
        rcases serviceRound_out ag svc st ev _ h with ⟨e, st2, hf, _, _⟩ | ⟨st2, hn, h1, h2⟩
        · cases hf
        · cases hn
          exact ⟨h1, h2, fun n2 hn2 => by cases hn2; exact Nat.lt_of_not_le hceil⟩

/-! ### Claim theorems on the turn loop -/

/-- C6: every completed service round-trip increases the action counter used
against the `maxActions` ceiling by exactly 1, whatever and however many
items (including multiple `ComputerCall`s) the round-trip's response
contained. -/
theorem round_trip_increments_once (ag : Agent) (svc : Service) (maxA : Option Nat)
    (st st1 : LoopState)
    (h : (loopIter ag svc maxA st).2 = .next st1) :
    st1.action_count = st.action_count + 1 := by
  cases hli : loopIter ag svc maxA st with
  | mk ev o =>
    rw [hli] at h
    cases h
    exact (loopIter_next_counters ag svc maxA st ev st1 hli).1

/-- Witness for C6: a round-trip whose response carries two computer calls
still bumps the counter by exactly one. -/
theorem round_trip_increments_once_witness :
    wTwoCallState.action_count =
      ({ new_items := [], action_count := 0, service_calls := 0 } : LoopState).action_count + 1 :=
  round_trip_increments_once wAgent wSvcTwoCalls none
    { new_items := [], action_count := 0, service_calls := 0 } wTwoCallState (by decide)

/-- C4: when the service's response has no `output` field, the loop fails
fast whatever the configuration: the round emits only the service-call event
(nothing is dispatched or logged), appends no items (`new_items` is
unchanged in the fatal state), and the loop ends fatally instead of
continuing — under `debug` with the explicit `ValueError`, otherwise with
the `KeyError` from subscripting the missing field. -/
theorem missing_output_fail_fast (ag : Agent) (svc : Service) (maxA : Option Nat)
    (st : LoopState) (fuel : Nat)
    (hout : (svc st.service_calls).output = none)
    (hterm : lastRoleAssistant st.new_items = false)
    (hceil : ∀ n, maxA = some n → st.action_count < n) :
    runLoop ag svc maxA (fuel + 1) st =
      ([Event.serviceCall st.service_calls],
       .fatal (if ag.debug then PyError.valueError "No output from model"
               else PyError.keyError "output")
         { st with service_calls := st.service_calls + 1 }) := by
  have hsr : serviceRound ag svc st =
      ([Event.serviceCall st.service_calls],
       .fatal (if ag.debug then PyError.valueError "No output from model"
               else PyError.keyError "output")
         { st with service_calls := st.service_calls + 1 }) := by
    by_cases hd : ag.debug <;> simp [serviceRound, hout, hd]
  have hli : loopIter ag svc maxA st = serviceRound ag svc st := by
    unfold loopIter
    rw [if_neg (by simp [hterm])]
    cases maxA with
    | none => rfl
    | some n =>
      simp only []
      rw [if_neg (Nat.not_le.mpr (hceil n rfl))]
  simp [runLoop, hli, hsr]

/-- Witness for C4: a non-debug agent against a service with no `output`. -/
theorem missing_output_fail_fast_witness :
    runLoop wAgent wSvcNoOutput none 1
        { new_items := [], action_count := 0, service_calls := 0 } =
      ([Event.serviceCall 0],
       .fatal (if wAgent.debug then PyError.valueError "No output from model"
               else PyError.keyError "output")
         { new_items := [], action_count := 0, service_calls := 1 }) :=
  missing_output_fail_fast wAgent wSvcNoOutput none
    { new_items := [], action_count := 0, service_calls := 0 } 0
    rfl rfl (by intro n h; cases h)

/-- Under a ceiling `n`, from a state whose counters agree and respect the
ceiling, fuel `n + 1 - action_count` suffices: the run is never cut short
and makes at most `n` service calls. -/
theorem runLoop_capped (ag : Agent) (svc : Service) (n : Nat) :
    ∀ fuel st, st.service_calls = st.action_count → st.action_count ≤ n →
      n + 1 ≤ st.action_count + fuel →
      (runLoop ag svc (some n) fuel st).2.cutShort = false ∧
      (runLoop ag svc (some n) fuel st).2.state.service_calls ≤ n := by
  intro fuel
  induction fuel with
  | zero => intro st h1 h2 h3; omega
  | succ fuel ih =>
    intro st h1 h2 h3
    cases hli : loopIter ag svc (some n) st with
    | mk ev o =>
      cases o with
      | done st1 =>
        obtain ⟨hc1, hc2⟩ := loopIter_done_counters ag svc (some n) st ev st1 hli
        simp [runLoop, hli, RunResult.cutShort, RunResult.state]
        omega
      | fatal e st1 =>
        obtain ⟨hc1, hc2, hc3⟩ := loopIter_fatal_counters ag svc n st ev e st1 hli
        simp [runLoop, hli, RunResult.cutShort, RunResult.state]
        omega
      | next st1 =>
        obtain ⟨hc1, hc2, hc3⟩ := loopIter_next_counters ag svc (some n) st ev st1 hli
        have hlt := hc3 n rfl
        have := ih st1 (by omega) (by omega) (by omega)
        simpa [runLoop, hli] using this

/-- C3: with `maxActions = n` the loop terminates — fuel `n + 1` is never
exhausted — and the number of service round-trips before termination is at
most `n + 1` (in fact at most `n`). -/
theorem max_actions_bounds_round_trips (ag : Agent) (svc : Service) (n : Nat) :
    (run_full_turn ag svc (some n) (n + 1)).2.cutShort = false ∧
    (run_full_turn ag svc (some n) (n + 1)).2.state.service_calls ≤ n + 1 := by
  have h := runLoop_capped ag svc n (n + 1)
    { new_items := [], action_count := 0, service_calls := 0 } rfl (Nat.zero_le n) (by omega)
  exact ⟨h.1, Nat.le_succ_of_le h.2⟩

/-- A successful `message`/`max-actions` dispatch returns no follow-ups. -/
theorem handleMessage_ok_role (ag : Agent) (item : Item) (r : StepRecord) (outs : List Item)
    (h : (handleMessage ag item r).2 = .ok outs) : ∀ o ∈ outs, o.role = none := by
  intro o ho
  unfold handleMessage at h
  split at h
  · simp at h
  · simp [finishRecord] at h
    subst h
    cases ho

/-- A successful `function_call` dispatch returns one role-less output. -/
theorem handleFunctionCall_ok_role (ag : Agent) (item : Item) (r : StepRecord)
    (outs : List Item) (h : (handleFunctionCall ag item r).2 = .ok outs) :
    ∀ o ∈ outs, o.role = none := by
  intro o ho
  cases hnm : item.name with
  | none => simp only [handleFunctionCall, hnm] at h; simp at h
  | some nm =>
    cases hargs : item.arguments with
    | none => simp only [handleFunctionCall, hnm, hargs] at h; simp at h
    | some args =>
      cases hcid : item.call_id with
      | none => simp only [handleFunctionCall, hnm, hargs, hcid] at h; simp at h
      | some cid =>
        simp only [handleFunctionCall, hnm, hargs, hcid, finishRecord] at h
        simp at h
        subst h
        simp at ho
        subst ho
        rfl

/-- A successful `computer_call` dispatch returns one role-less output. -/
theorem handleComputerCall_ok_role (ag : Agent) (item : Item) (r : StepRecord)
    (outs : List Item) (h : (handleComputerCall ag item r).2 = .ok outs) :
    ∀ o ∈ outs, o.role = none := by
  intro o ho
  cases hact : item.action with
  | none => simp only [handleComputerCall, hact] at h; simp at h
  | some acts =>
    cases hty : dget acts "type" with
    | none => simp only [handleComputerCall, hact, hty] at h; simp at h
    | some ty =>
      by_cases hops : ag.computer.ops.contains ty = true
      · cases hrc : (runChecks ag.acknowledge_safety_check_callback
            (item.pending_safety_checks.getD [])).2 with
        | error e =>
          simp only [handleComputerCall, hact, hty, hops, if_true, hrc] at h
          simp at h
        | ok u =>
          cases hcid : item.call_id with
          | none =>
            simp only [handleComputerCall, hact, hty, hops, if_true, hrc, hcid] at h
            simp at h
          | some cid =>
            rcases hba : browserAugment ag
                { type := "input_image",
                  image_url := "data:image/png;base64," ++ ag.computer.screenshotData }
                r with e | pr
            · simp only [handleComputerCall, hact, hty, hops, if_true, hrc, hcid, hba] at h
              simp at h
            · obtain ⟨payload, record1⟩ := pr
              simp only [handleComputerCall, hact, hty, hops, if_true, hrc, hcid, hba,
                finishRecord] at h
              simp at h
              subst h
              simp at ho
              subst ho
              rfl
      · simp only [handleComputerCall, hact, hty] at h
        rw [if_neg hops] at h
        simp at h

/-- Follow-up items built by the dispatcher carry no `role` key. -/
theorem handle_item_ok_role_none (ag : Agent) (item : Item) (outs : List Item)
    (h : (handle_item ag item).2 = .ok outs) :
    ∀ o ∈ outs, o.role = none := by
  unfold handle_item at h
  by_cases h1 : (item.type == "message" || item.type == "max-actions") = true
  · rw [if_pos h1] at h
    exact handleMessage_ok_role ag item _ outs h
  · rw [if_neg h1] at h
    by_cases h2 : (item.type == "function_call") = true
    · rw [if_pos h2] at h
      exact handleFunctionCall_ok_role ag item _ outs h
    · rw [if_neg h2] at h
      by_cases h3 : (item.type == "computer_call") = true
      · rw [if_pos h3] at h
        exact handleComputerCall_ok_role ag item _ outs h
      · rw [if_neg h3] at h
        by_cases h4 : (item.type == "reasoning") = true
        · rw [if_pos h4] at h
          unfold handleReasoning at h
          simp [finishRecord] at h
          subst h
          intro o ho
          cases ho
        · rw [if_neg h4] at h
          simp [finishRecord] at h
          subst h
          intro o ho
          cases ho

/-- Follow-up items of a whole dispatched response carry no `role` key. -/
theorem dispatchItems_ok_role_none (ag : Agent) (items : List Item) (follow : List Item)
    (h : (dispatchItems ag items).2 = .ok follow) :
    ∀ o ∈ follow, o.role = none := by
  induction items generalizing follow with
  | nil =>
    simp [dispatchItems] at h
    subst h
    intro o ho
    cases ho
  | cons i rest ih =>
    simp only [dispatchItems] at h
    cases h1 : (handle_item ag i).2 with
    | error e => rw [h1] at h; simp at h
    | ok outs =>
      rw [h1] at h
      cases h2 : (dispatchItems ag rest).2 with
      | error e => rw [h2] at h; simp at h
      | ok outs2 =>
        rw [h2] at h
        simp at h
        subst h
        intro o ho
        rcases List.mem_append.mp ho with hm | hm
        · exact handle_item_ok_role_none ag i outs h1 o hm
        · exact ih outs2 h2 o hm

/-- A stopping iteration ends in a state whose last item is an assistant
message or the limit marker, provided the invariant held. -/
theorem loopIter_done_good (ag : Agent) (svc : Service) (maxA : Option Nat)
    (st : LoopState) (ev : List Event) (st1 : LoopState)
    (hinv : RoleInv st.new_items)
    (h : loopIter ag svc maxA st = (ev, .done st1)) :
    ∃ l, st1.new_items.getLast? = some l ∧
      ((l.type = "message" ∧ l.role = some "assistant") ∨ l.type = "max-actions") := by
  unfold loopIter at h
  by_cases hterm : lastRoleAssistant st.new_items = true
  · rw [if_pos (by simp [hterm])] at h
    simp at h
    obtain ⟨-, h2⟩ := h
    subst h2
    unfold lastRoleAssistant at hterm
    cases hl : st.new_items.getLast? with
    | none => rw [hl] at hterm; cases hterm
    | some l =>
      rw [hl] at hterm
      have hrole : l.role = some "assistant" := by simpa using hterm
      have hmem : l ∈ st.new_items := List.mem_of_mem_getLast? hl
      refine ⟨l, rfl, ?_⟩
      rcases hinv l hmem hrole with ht | ht
      · exact Or.inl ⟨ht, hrole⟩
      · exact Or.inr ht
  · rw [if_neg (by simp [hterm])] at h
    cases maxA with
    | none =>
      rcases serviceRound_out ag svc st ev _ h with ⟨e, st2, hf, _, _⟩ | ⟨st2, hn, _, _⟩
      · cases hf
      · cases hn
    | some n =>
      simp only [] at h
      by_cases hceil : n ≤ st.action_count
      · rw [if_pos hceil] at h
        rcases ceilingStep_done ag st n with ⟨ev0, hcd⟩
        rw [hcd] at h
        simp only [Prod.mk.injEq, StepOut.done.injEq] at h
        rw [← h.2]
        refine ⟨limitMessage n, ?_, Or.inr rfl⟩
        simp [List.getLast?_concat]
      · rw [if_neg hceil] at h
        rcases serviceRound_out ag svc st ev _ h with ⟨e, st2, hf, _, _⟩ | ⟨st2, hn, _, _⟩
        · cases hf
        · cases hn

/-- A continuing iteration preserves the role invariant, provided the
service's items obey the data model. -/
theorem loopIter_next_inv (ag : Agent) (svc : Service) (maxA : Option Nat)
    (st : LoopState) (ev : List Event) (st1 : LoopState)
    (hwf : WFService svc) (hinv : RoleInv st.new_items)
    (h : loopIter ag svc maxA st = (ev, .next st1)) : RoleInv st1.new_items := by
  have hsr : serviceRound ag svc st = (ev, .next st1) := by
    unfold loopIter at h
    by_cases hterm : lastRoleAssistant st.new_items = true
    · rw [if_pos (by simp [hterm])] at h
      simp at h
    · rw [if_neg (by simp [hterm])] at h
      cases maxA with
      | none => exact h
      | some n =>
        simp only [] at h
        by_cases hceil : n ≤ st.action_count
        · rw [if_pos hceil] at h
          rcases ceilingStep_done ag st n with ⟨ev0, hcd⟩
          rw [hcd] at h
          simp at h
        · rw [if_neg hceil] at h
          exact h
  rcases serviceRound_next_items ag svc st ev st1 hsr with ⟨outs, follow, hout, hdisp, hitems⟩
  intro i hi hrole
  rw [hitems] at hi
  rcases List.mem_append.mp hi with hm | hm
  · rcases List.mem_append.mp hm with hm2 | hm2
    · exact hinv i hm2 hrole
    · have := hwf st.service_calls i (by rw [hout]; simpa using hm2) hrole
      exact Or.inl this
  · have := dispatchItems_ok_role_none ag outs follow hdisp i hm
    rw [this] at hrole
    cases hrole

/-- From any invariant-respecting state, a normal return of the loop ends
with an assistant message or the limit marker as the last item. -/
theorem runLoop_ok_good (ag : Agent) (svc : Service) (maxA : Option Nat)
    (hwf : WFService svc) :
    ∀ fuel st st1, RoleInv st.new_items →
      (runLoop ag svc maxA fuel st).2 = .ok st1 →
      ∃ l, st1.new_items.getLast? = some l ∧
        ((l.type = "message" ∧ l.role = some "assistant") ∨ l.type = "max-actions") := by
  intro fuel
  induction fuel with
  | zero =>
    intro st st1 hinv h
    simp [runLoop] at h
  | succ fuel ih =>
    intro st st1 hinv h
    cases hli : loopIter ag svc maxA st with
    | mk ev o =>
      cases o with
      | done st2 =>
        simp [runLoop, hli] at h
        subst h
        exact loopIter_done_good ag svc maxA st ev st2 hinv hli
      | fatal e st2 => simp [runLoop, hli] at h
      | next st2 =>
        simp only [runLoop, hli] at h
        exact ih st2 st1 (loopIter_next_inv ag svc maxA st ev st2 hwf hinv hli) h

/-- C1: whenever `run_full_turn` returns normally, the returned item
sequence is non-empty and its last element is either an assistant message or
the synthesized `max-actions` marker — never a computer call, function call,
reasoning, or tool-output item — provided the service's items obey the
spec's data model (only messages carry a role). -/
theorem run_full_turn_good_last (ag : Agent) (svc : Service) (maxA : Option Nat)
    (fuel : Nat) (st1 : LoopState)
    (hwf : WFService svc)
    (h : (run_full_turn ag svc maxA fuel).2 = .ok st1) :
    ∃ l, st1.new_items.getLast? = some l ∧
      ((l.type = "message" ∧ l.role = some "assistant") ∨ l.type = "max-actions") := by
  exact runLoop_ok_good ag svc maxA hwf fuel
    { new_items := [], action_count := 0, service_calls := 0 } st1
    (by intro i hi; cases hi) h

/-- Witness for C1: one assistant-message response ends the run after one
round-trip with that message last. -/
theorem run_full_turn_good_last_witness :
    ∃ l, ({ new_items := [wAssistant], action_count := 1, service_calls := 1 } :
        LoopState).new_items.getLast? = some l ∧
      ((l.type = "message" ∧ l.role = some "assistant") ∨ l.type = "max-actions") :=
  run_full_turn_good_last wAgent wSvcMsg none 2
    { new_items := [wAssistant], action_count := 1, service_calls := 1 }
    (by
      intro k i hi hrole
      simp [wSvcMsg] at hi
      subst hi
      rfl)
    (by decide)

/-! ### Dict lemmas for the browser metadata backfill -/

theorem dget_map_set (d : Dict) (k v : String)
    (h : (d.find? (fun p => p.1 == k)).isSome = true) :
    dget (d.map (fun p => if p.1 == k then (k, v) else p)) k = some v := by
  induction d with
  | nil => simp [List.find?] at h
  | cons p d2 ih =>
    by_cases hp : (p.1 == k) = true
    · simp [dget, List.find?, hp]
    · have h2 : (d2.find? (fun q => q.1 == k)).isSome = true := by
        simpa [List.find?, hp] using h
      simp only [List.map_cons, hp, if_false, Bool.false_eq_true]
      simp only [dget, List.find?, hp] at ih ⊢
      exact ih h2

theorem dget_append_single (d : Dict) (k v : String)
    (h : d.find? (fun p => p.1 == k) = none) :
    dget (d ++ [(k, v)]) k = some v := by
  induction d with
  | nil => simp [dget, List.find?]
  | cons p d2 ih =>
    by_cases hp : (p.1 == k) = true
    · simp [List.find?, hp] at h
    · have h2 : d2.find? (fun q => q.1 == k) = none := by
        simpa [List.find?, hp] using h
      simp only [List.cons_append]
      simp only [dget, List.find?, hp] at ih ⊢
      exact ih h2

/-- After `d[k] = v`, looking up `k` yields `v`. -/
theorem dget_dset_self (d : Dict) (k v : String) : dget (dset d k v) k = some v := by
  unfold dset
  cases hfind : d.find? (fun p => p.1 == k) with
  | none =>
    rw [if_neg (by simp [hfind])]
    exact dget_append_single d k v hfind
  | some q =>
    rw [if_pos (by simp [hfind])]
    exact dget_map_set d k v (by simp [hfind])

/-- `d[k] = v` never leaves the dict empty. -/
theorem dset_isEmpty_false (d : Dict) (k v : String) : (dset d k v).isEmpty = false := by
  unfold dset
  split
  · rename_i h
    cases d with
    | nil => simp [List.find?] at h
    | cons p d2 => simp
  · cases d <;> simp

/-- A dict with a successful lookup is non-empty. -/
theorem dget_some_isEmpty_false (d : Dict) (k u : String) (h : dget d k = some u) :
    d.isEmpty = false := by
  cases d with
  | nil => simp [dget, List.find?] at h
  | cons p d2 => simp

/-- On a browser surface with a non-blocklisted URL, the augmentation
succeeds, and the `current_url` attached to the output payload is the
surface metadata's `full_url` when that is present and non-empty, and the
raw current URL otherwise. -/
theorem browserAugment_ok_current_url (ag : Agent) (payload : ImagePayload)
    (record : StepRecord)
    (henv : ag.computer.environment = "browser")
    (hurl : ag.blocklisted ag.computer.currentUrl = false) :
    ∃ pr, browserAugment ag payload record = .ok pr ∧
      pr.1.current_url = some (match dget (surfaceMetadata ag.computer) "full_url" with
        | some u => if u ≠ "" then u else ag.computer.currentUrl
        | none => ag.computer.currentUrl) := by
  simp only [browserAugment, henv, hurl]
  simp only [beq_self_eq_true, if_true, Bool.false_eq_true, if_false]
  cases hfu : dget (surfaceMetadata ag.computer) "full_url" with
  | none =>
    simp only [hfu, truthy, Bool.false_eq_true, if_false]
    rw [if_neg (by simp [dset_isEmpty_false])]
    refine ⟨_, rfl, ?_⟩
    simp [dget_dset_self]
  | some u =>
    by_cases hu : u = ""
    · subst hu
      simp only [hfu, truthy, bne_self_eq_false, Bool.false_eq_true, if_false]
      rw [if_neg (by simp [dset_isEmpty_false])]
      refine ⟨_, rfl, ?_⟩
      simp [dget_dset_self]
    · have ht : truthy (some u) = true := by simp [truthy, hu]
      simp only [hfu, ht, if_true]
      rw [if_neg (by simp [dget_some_isEmpty_false _ _ _ hfu])]
      refine ⟨_, rfl, ?_⟩
      simp [hfu, hu]

/-- C5 counterexample: a browser surface whose metadata is present but lacks
`full_url` — the recorded `current_url` is the raw URL, not anything from
the metadata, so "equals the metadata's `full_url` when metadata is
present" fails at this input. -/
theorem recorded_url_mismatch_with_metadata :
    (surfaceMetadata wAgentBrowserNoFull.computer).isEmpty = false ∧
    recordedCurrentUrl (handle_item wAgentBrowserNoFull wClick).2 = some "http://raw" ∧
    dget (surfaceMetadata wAgentBrowserNoFull.computer) "full_url" ≠ some "http://raw" := by
  exact ⟨by decide, by decide, by decide⟩

/-- C5 (amended): for a `ComputerCall` dispatched on a browser surface, the
`current_url` recorded on the emitted output equals the surface metadata's
`full_url` when the metadata is present and carries a non-empty `full_url`,
and equals the raw current URL reported by the surface otherwise. -/
theorem browser_recorded_current_url (ag : Agent) (item : Item)
    (acts : Dict) (ty cid : String)
    (henv : ag.computer.environment = "browser")
    (hty0 : item.type = "computer_call")
    (hact : item.action = some acts)
    (hty : dget acts "type" = some ty)
    (hops : ag.computer.ops.contains ty = true)
    (hpend : item.pending_safety_checks.getD [] = [])
    (hcid : item.call_id = some cid)
    (hurl : ag.blocklisted ag.computer.currentUrl = false) :
    recordedCurrentUrl (handle_item ag item).2 =
      some (match dget (surfaceMetadata ag.computer) "full_url" with
        | some u => if u ≠ "" then u else ag.computer.currentUrl
        | none => ag.computer.currentUrl) := by
  rw [handle_item_computer_call ag item hty0]
  obtain ⟨pr, hba, hcu⟩ := browserAugment_ok_current_url ag
    { type := "input_image", image_url := "data:image/png;base64," ++ ag.computer.screenshotData }
    { prompt_id := ag.current_prompt_id, type := some item.type } henv hurl
  obtain ⟨payload1, record1⟩ := pr
  simp only [handleComputerCall, hact, hty, hops, if_true, hpend, runChecks, hcid, hba,
    finishRecord]
  simpa [recordedCurrentUrl] using hcu

/-- Witness for C5 (amended): a browser surface whose metadata carries
`full_url = "http://full"`. -/
theorem browser_recorded_current_url_witness :
    recordedCurrentUrl (handle_item wAgentBrowserFull wClick).2 =
      some (match dget (surfaceMetadata wAgentBrowserFull.computer) "full_url" with
        | some u => if u ≠ "" then u else wAgentBrowserFull.computer.currentUrl
        | none => wAgentBrowserFull.computer.currentUrl) :=
  browser_recorded_current_url wAgentBrowserFull wClick
    [("type", "click"), ("x", "10")] "click" "c1"
    rfl rfl rfl rfl (by decide) rfl rfl rfl

end CUA
